import Mathlib

set_option maxRecDepth 4000

/-!
Shallow embedding of `src/scraper.py` (class `NepseDailyScraper`) from the
predicto repository.  Pure string manipulation, date handling, row
processing, the pagination loop, the fallback probe and the CSV writer are
translated into executable Lean definitions; network effects are modelled
by passing the per-page fetch results (`Except Unit Page`) as an explicit
function argument, and `datetime.now()`-derived values (the cutoff date,
"today", the weekday of a date, and the digit string of a float used by the
volume heuristic) as explicit parameters.  Python `float` values are
modelled as exact rationals.
-/

namespace Nepse

/-! ### Python string primitives used by the scraper -/

/-- Python `str.strip()` on a character list (ASCII whitespace model). -/
def pyStripList (l : List Char) : List Char :=
  ((l.dropWhile Char.isWhitespace).reverse.dropWhile Char.isWhitespace).reverse

/-- Python `str.strip()`. -/
def pyStrip (s : String) : String := String.mk (pyStripList s.data)

/-- Python `str.lower()` (ASCII model). -/
def pyLower (s : String) : String := String.mk (s.data.map Char.toLower)

/-- Python `str.replace(c, '')`: remove every occurrence of character `c`. -/
def removeChar (c : Char) (s : String) : String := String.mk (s.data.filter (· ≠ c))

/-- Python `str.isdigit()`: nonempty and all digits (ASCII model). -/
def isDigits (s : String) : Bool := !s.data.isEmpty && s.data.all Char.isDigit

/-- Numeric value of a digit string (most significant first). -/
def digitsToNat (l : List Char) : ℕ := l.foldl (fun acc c => 10 * acc + (c.toNat - 48)) 0

/-- Python `str.split(sep)` for a single-character separator: split on every
occurrence, preserving empty pieces (`"a//b" → ["a", "", "b"]`). -/
def splitOnCharAux (sep : Char) : List Char → List Char → List (List Char)
  | [], cur => [cur.reverse]
  | c :: cs, cur =>
    if c = sep then cur.reverse :: splitOnCharAux sep cs []
    else splitOnCharAux sep cs (c :: cur)

/-- Python `s.split(sep)` for a single-character separator. -/
def splitOnChar (sep : Char) (s : String) : List String :=
  (splitOnCharAux sep s.data []).map String.mk

/-- Python `int(s)`: optional surrounding whitespace, optional sign, digits. -/
def pyInt (s : String) : Option ℤ :=
  match pyStripList s.data with
  | '-' :: rest => if !rest.isEmpty && rest.all Char.isDigit then some (-(digitsToNat rest : ℤ)) else none
  | '+' :: rest => if !rest.isEmpty && rest.all Char.isDigit then some ((digitsToNat rest : ℤ)) else none
  | rest => if !rest.isEmpty && rest.all Char.isDigit then some ((digitsToNat rest : ℤ)) else none

/-- Value of a decimal numeral split as integer and fractional digit parts:
`ip.fp` denotes `(ip·10^|fp| + fp) / 10^|fp|`. -/
def decOfParts (ip fp : List Char) : ℚ :=
  Rat.divInt (digitsToNat ip * 10 ^ fp.length + digitsToNat fp : ℕ) ((10 : ℕ) ^ fp.length)

/-- Python `float(s)` restricted to digit-and-dot strings: succeeds when the
string has at most one `'.'` (e.g. `"5"`, `"5."`, `".5"`, `"12.34"`), fails
otherwise (`float("1.2.3")` raises `ValueError`). -/
def pyFloatDigits (s : String) : Option ℚ :=
  match splitOnChar '.' s with
  | [ip] => some (decOfParts ip.data [])
  | [ip, fp] => some (decOfParts ip.data fp.data)
  | _ => none

/-! ### Calendar dates (`datetime(year, month, day)`) -/

/-- A calendar date, as constructed by `datetime(year, month, day)`. -/
structure CalDate where
  year : ℕ
  month : ℕ
  day : ℕ
deriving DecidableEq, Repr

/-- Gregorian leap-year rule, as used by `datetime`. -/
def isLeap (y : ℕ) : Bool := (y % 4 == 0 && y % 100 != 0) || (y % 400 == 0)

/-- Number of days in a month. -/
def daysInMonth (y m : ℕ) : ℕ :=
  if m = 2 then (if isLeap y then 29 else 28)
  else if m = 4 ∨ m = 6 ∨ m = 9 ∨ m = 11 then 30
  else 31

/-- The `(year, month, day)` triples accepted by `datetime(...)`; anything
else raises `ValueError`. -/
def validDate (y m d : ℕ) : Prop :=
  1 ≤ y ∧ y ≤ 9999 ∧ 1 ≤ m ∧ m ≤ 12 ∧ 1 ≤ d ∧ d ≤ daysInMonth y m

instance validDate.dec : ∀ y m d, Decidable (validDate y m d) := fun y m d => by
  unfold validDate; exact inferInstance

/-- Chronological strict order on dates (`datetime` comparison). -/
def dateLt (a b : CalDate) : Prop :=
  a.year < b.year ∨ (a.year = b.year ∧ (a.month < b.month ∨ (a.month = b.month ∧ a.day < b.day)))

instance dateLt.dec : ∀ a b, Decidable (dateLt a b) := fun a b => by
  unfold dateLt; exact inferInstance

/-- Chronological non-strict order on dates. -/
def dateLe (a b : CalDate) : Prop := dateLt a b ∨ a = b

instance dateLe.dec : ∀ a b, Decidable (dateLe a b) := fun a b => by
  unfold dateLe; exact inferInstance

/-- `scraper.py` lines 140-146: check `'/' in date_cell` and a 3-way split,
parse the parts with `int`, and build `datetime(year, month, day)`; any
parse or construction failure yields `None` (the row is skipped). -/
def parseDateCell (s : String) : Option CalDate :=
  if s.data.contains '/' && (splitOnChar '/' s).length == 3 then
    match (splitOnChar '/' s).map pyInt with
    | [some y, some m, some d] =>
      if validDate y.toNat m.toNat d.toNat then some ⟨y.toNat, m.toNat, d.toNat⟩ else none
    | _ => none
  else none

/-- `scraper.py` lines 162-164: strip thousands separators and surrounding
space; the guard `clean_price.replace('.', '').isdigit()` must hold, and
then `float(clean_price)` must succeed (it fails when more than one dot
survives, raising `ValueError`, which line 177 turns into a skip). -/
def parsePrice (s : String) : Option ℚ :=
  if pyStrip (removeChar ',' s) ≠ ""
      && isDigits (removeChar '.' (pyStrip (removeChar ',' s))) then
    pyFloatDigits (pyStrip (removeChar ',' s))
  else none

/-! ### Records and the synthetic volume heuristic -/

/-- A harvested record.  In the Python code `Date` is the canonical
`MM/DD/YYYY` string produced by `strftime` (a bijective image of the parsed
date, so we store the date value itself), `Close` is a float, and `Volume`
is the display-formatted volume estimate (we store its numeric value). -/
structure Record where
  date : CalDate
  close : ℚ
  volume : ℚ
deriving DecidableEq, Repr

/-- `scraper.py` lines 42-48: weekday factor of `get_daily_volume_estimate`.
The weekday of a date (`datetime.weekday()`) is supplied as the abstract
parameter `wk`. -/
def dayFactor (w : ℕ) : ℚ := if w = 0 then 1.2 else if w = 4 then 0.9 else 1.0

/-- `scraper.py` lines 29-55, `get_daily_volume_estimate`: numeric value of
the volume estimate.  `dg close` abstracts
`int(str(close_price).replace('.', '')[-2:])` (the last two digit
characters of the float's repr); `wk d` abstracts the parsed date's
weekday.  The Python function returns this value formatted with grouping
and two fraction digits; we keep the numeric value. -/
def get_daily_volume_estimate (dg : ℚ → ℕ) (wk : CalDate → ℕ) (close : ℚ) (d : CalDate) : ℚ :=
  4500000000 * (close / 2500 * 0.3 + 0.85) * dayFactor (wk d) * (0.7 + ((dg close % 60 : ℕ) : ℚ) / 100)

/-! ### Per-row processing (`scraper.py` lines 124-181) -/

/-- Outcome of processing one table row: silently skipped, boundary stop
(the early `return` at line 159), or accepted as a record. -/
inductive StepResult where
  | skip
  | stop
  | accept (r : Record)
deriving DecidableEq, Repr

/-- `scraper.py` lines 124-181: process one row.  `cells` are the raw cell
texts (`row.find_all(['td','th'])` followed by `get_text()`), `seen` the
page's `seen_dates` set, `target` the cutoff date. -/
def processRow (dg : ℚ → ℕ) (wk : CalDate → ℕ) (target : CalDate) (seen : List CalDate)
    (cells : List String) : StepResult :=
  if cells.length < 3 then .skip
  else if pyStrip (cells.getD 1 "") = "" ∨ pyStrip (cells.getD 2 "") = "" then .skip
  else
    match parseDateCell (pyStrip (cells.getD 1 "")) with
    | none => .skip
    | some d =>
      if seen.contains d then .skip
      else if dateLt d target then .stop
      else
        match parsePrice (pyStrip (cells.getD 2 "")) with
        | some v => .accept ⟨d, v, get_daily_volume_estimate dg wk v d⟩
        | none => .skip

/-- `scraper.py` lines 121-181: fold `processRow` over a page's rows with
the page-local `seen_dates` set and `page_records` accumulator.  The
boolean is `true` when the date-boundary early return (line 159) fired; in
that case the returned records are exactly those collected before the
boundary row. -/
def processRows (dg : ℚ → ℕ) (wk : CalDate → ℕ) (target : CalDate) :
    List (List String) → List CalDate → List Record → List Record × Bool
  | [], _, recs => (recs, false)
  | row :: rest, seen, recs =>
    match processRow dg wk target seen row with
    | .skip => processRows dg wk target rest seen recs
    | .stop => (recs, true)
    | .accept r => processRows dg wk target rest (r.date :: seen) (recs ++ [r])

/-! ### Page structure and the selector cascade (`scraper.py` lines 84-119) -/

/-- One table row: its cell texts. -/
abbrev Row := List String

/-- One fetched page, abstracted to the results of the five CSS selector
queries of lines 89-95 (for the three table-shaped selectors, each matched
element's full `tr` list, header row included) plus the next-page-link
probe of lines 191-194. -/
structure Page where
  tables : List (List Row)
  dotTables : List (List Row)
  classTables : List (List Row)
  tbodyRows : List Row
  trRows : List Row
  nextLink : Bool
deriving DecidableEq, Repr

/-- State threaded through the selector-cascade loop: the current `rows`
value and the `table_found` flag. -/
structure SelState where
  rows : List Row
  found : Bool
deriving DecidableEq, Repr

/-- Lines 102-107: for a table-shaped selector, scan the matched elements
and take the first whose data rows (`find_all('tr')[1:]`, header skipped)
number more than 5. -/
def firstBigTable : List (List Row) → Option (List Row)
  | [] => none
  | t :: ts =>
    let dataRows := t.drop 1
    if 5 < dataRows.length then some dataRows else firstBigTable ts

/-- Lines 100-107: one cascade step for a table-shaped selector
(`'table'`, `'.table'`, `'[class*="table"]'`): `rows` and `table_found`
are updated only when some matched table has more than 5 data rows. -/
def tableStep (elements : List (List Row)) (st : SelState) : SelState :=
  if elements.isEmpty then st
  else
    match firstBigTable elements with
    | some r => ⟨r, true⟩
    | none => st

/-- Lines 108-112: one cascade step for a direct row selector
(`'tbody tr'`, `'tr'`): when the selector matches anything, `rows` is
overwritten unconditionally and `table_found` is set only above 5 rows. -/
def directStep (elements : List Row) (st : SelState) : SelState :=
  if elements.isEmpty then st
  else ⟨elements, decide (5 < elements.length)⟩

/-- One cascade strategy: a table-shaped selector's matches or a direct row
selector's matches. -/
inductive Strategy where
  | tbl (elements : List (List Row))
  | dir (elements : List Row)

/-- Lines 97-115: the `for selector in selectors` loop, breaking at the
first strategy that sets `table_found`. -/
def selectLoop : List Strategy → SelState → SelState
  | [], st => st
  | s :: rest, st =>
    let st' := match s with
      | .tbl es => tableStep es st
      | .dir es => directStep es st
    if st'.found then st' else selectLoop rest st'

/-- Lines 88-115: run the five-selector cascade on a page and return the
resulting `rows` value. -/
def selectRows (pg : Page) : List Row :=
  (selectLoop [.tbl pg.tables, .tbl pg.dotTables, .tbl pg.classTables,
               .dir pg.tbodyRows, .dir pg.trRows] ⟨[], false⟩).rows

/-- Closed-form description of the cascade outcome, for comparison with
`selectRows`: the first table-shaped selector containing a table with more
than 5 data rows wins; failing that, the `tbody tr` matches win when they
number more than 5; failing that, the rows processed are the *last*
nonempty direct selector result (`tr`, falling back to `tbody tr`), even
when it has 5 rows or fewer. -/
def selectRowsSpec (pg : Page) : List Row :=
  match firstBigTable pg.tables with
  | some r => r
  | none =>
    match firstBigTable pg.dotTables with
    | some r => r
    | none =>
      match firstBigTable pg.classTables with
      | some r => r
      | none =>
        if 5 < pg.tbodyRows.length then pg.tbodyRows
        else if !pg.trRows.isEmpty then pg.trRows
        else if !pg.tbodyRows.isEmpty then pg.tbodyRows
        else []

/-! ### The pagination loop (`scraper.py` lines 57-206) -/

/-- `scraper.py` lines 68-206: the `while page <= 30` loop.  `fetch page`
models lines 73-82 (the HTTP GET, `raise_for_status`, and soup parsing);
`.error` is any exception there, caught by line 201 which breaks the loop.
The second component of the result records which page numbers were fetched
(in order), instrumenting the requests actually issued.  The `fuel`
argument only bounds the recursion depth; the run starts with fuel 31 so
the `30 < page` guard always fires before fuel does. -/
def scrapeLoop (dg : ℚ → ℕ) (wk : CalDate → ℕ) (fetch : ℕ → Except Unit Page)
    (target : CalDate) : ℕ → ℕ → List Record → List ℕ → List Record × List ℕ
  | 0, _, acc, fetched => (acc, fetched)
  | fuel + 1, page, acc, fetched =>
    if 30 < page then (acc, fetched)
    else
      match fetch page with
      | .error _ => (acc, fetched ++ [page])
      | .ok pg =>
        if (selectRows pg).isEmpty then (acc, fetched ++ [page])
        else if (processRows dg wk target (selectRows pg) [] []).2 then
          (acc ++ (processRows dg wk target (selectRows pg) [] []).1, fetched ++ [page])
        else if (processRows dg wk target (selectRows pg) [] []).1.isEmpty then
          (acc, fetched ++ [page])
        else if pg.nextLink then
          scrapeLoop dg wk fetch target fuel (page + 1)
            (acc ++ (processRows dg wk target (selectRows pg) [] []).1) (fetched ++ [page])
        else (acc ++ (processRows dg wk target (selectRows pg) [] []).1, fetched ++ [page])

/-- `scraper.py` lines 57-206, `scrape_nepse_daily_data`: run the
pagination loop from page 1 with an empty accumulator.  `target` is the
cutoff date computed at line 66 (`datetime.now() - timedelta(days=365 * years)`). -/
def scrape_nepse_daily_data (dg : ℚ → ℕ) (wk : CalDate → ℕ) (fetch : ℕ → Except Unit Page)
    (target : CalDate) : List Record × List ℕ :=
  scrapeLoop dg wk fetch target 31 1 [] []

/-! ### The fallback probe (`scraper.py` lines 208-251) -/

/-- One alternative source's HTTP response: status code and visible text
(`soup.get_text()`). -/
structure Resp where
  status : ℕ
  text : String
deriving DecidableEq, Repr

/-- Scanner for `re.findall(r'\d+\.?\d*', text)`: maximal runs of digits,
optionally containing one dot after at least one digit.  `dotSeen` records
whether the current numeral already holds a dot; `cur` is the current
numeral reversed. -/
def scanAux : Bool → List Char → List Char → List (List Char)
  | _, cur, [] => if cur.isEmpty then [] else [cur.reverse]
  | dotSeen, cur, c :: cs =>
    if c.isDigit then scanAux dotSeen (c :: cur) cs
    else if c = '.' && !dotSeen && !cur.isEmpty then scanAux true ('.' :: cur) cs
    else (if cur.isEmpty then [] else [cur.reverse]) ++ scanAux false [] cs

/-- All numerals matched by `re.findall(r'\d+\.?\d*', text)`, in order. -/
def findNumerals (t : String) : List String := (scanAux false [] t.data).map String.mk

/-- Whether `pat` occurs at the head of `l`. -/
def startsWithL : List Char → List Char → Bool
  | _, [] => true
  | [], _ :: _ => false
  | a :: as, b :: bs => a == b && startsWithL as bs

/-- Python `pat in s` substring containment, on character lists. -/
def containsSub : List Char → List Char → Bool
  | [], pat => pat.isEmpty
  | l@(_ :: rest), pat => startsWithL l pat || containsSub rest pat

/-- `scraper.py` line 230: `'nepse' in text_content and 'index' in text_content`. -/
def hasKeywords (t : String) : Bool :=
  containsSub t.data "nepse".data && containsSub t.data "index".data

/-- `scraper.py` lines 208-251, `try_alternative_source`: walk the
alternative sources in order; `.error` models a request exception (caught
at line 244, continuing with the next source).  On a 200 response whose
lowercased text contains both keywords and at least one numeral whose
`float` conversion succeeds, return a single record dated `today`;
otherwise fall through to the next source, and return `[]` when the list
is exhausted. -/
def try_alternative_source (dg : ℚ → ℕ) (wk : CalDate → ℕ) (today : CalDate) :
    List (Except Unit Resp) → List Record
  | [] => []
  | s :: rest =>
    match s with
    | .error _ => try_alternative_source dg wk today rest
    | .ok r =>
      if r.status = 200 then
        if hasKeywords (pyLower r.text) then
          match findNumerals (pyLower r.text) with
          | [] => try_alternative_source dg wk today rest
          | n :: _ =>
            match pyFloatDigits n with
            | some v => [⟨today, v, get_daily_volume_estimate dg wk v today⟩]
            | none => try_alternative_source dg wk today rest
        else try_alternative_source dg wk today rest
      else try_alternative_source dg wk today rest

/-- Characterisation of one source used in theorem hypotheses: the value
`try_alternative_source` would extract from this source alone, if any. -/
def srcYields (s : Except Unit Resp) : Option ℚ :=
  match s with
  | .error _ => none
  | .ok r =>
    if r.status = 200 then
      if hasKeywords (pyLower r.text) then
        match findNumerals (pyLower r.text) with
        | [] => none
        | n :: _ => pyFloatDigits n
      else none
    else none

/-! ### The dataset writer (`scraper.py` lines 253-297, `save_csv`) -/

/-- `df.drop_duplicates(subset=['Date'], keep='first')`: drop records whose
date equals that of an earlier record. -/
def dedupAux : List CalDate → List Record → List Record
  | _, [] => []
  | seen, r :: rest =>
    if seen.contains r.date then dedupAux seen rest
    else r :: dedupAux (r.date :: seen) rest

/-- Global dedup by `Date`, first occurrence wins. -/
def dedupByDate (l : List Record) : List Record := dedupAux [] l

/-- Sort key of line 276-277: records ordered by parsed date. -/
def recLe (a b : Record) : Prop := dateLe a.date b.date

/-- Strict version of the sort key. -/
def recLt (a b : Record) : Prop := dateLt a.date b.date

instance recLe.dec : DecidableRel recLe := fun a b => by
  unfold recLe; exact inferInstance

instance recLt.dec : DecidableRel recLt := fun a b => by
  unfold recLt; exact inferInstance

instance recLe.total : IsTotal Record recLe := by
  constructor
  intro a b
  obtain ⟨⟨y1, m1, d1⟩, c1, v1⟩ := a
  obtain ⟨⟨y2, m2, d2⟩, c2, v2⟩ := b
  simp only [recLe, dateLe, dateLt, CalDate.mk.injEq]
  omega

instance recLe.trans : IsTrans Record recLe := by
  constructor
  intro a b c hab hbc
  obtain ⟨⟨y1, m1, d1⟩, c1, v1⟩ := a
  obtain ⟨⟨y2, m2, d2⟩, c2, v2⟩ := b
  obtain ⟨⟨y3, m3, d3⟩, c3, v3⟩ := c
  simp only [recLe, dateLe, dateLt, CalDate.mk.injEq] at *
  omega

/-- `scraper.py` lines 253-284, `save_csv`: `None` on empty input (line
257-259, nothing is written); otherwise drop duplicate dates keeping the
first occurrence, then sort ascending by parsed date.  The projection to
the columns `Date, Close, Volume` (line 284) is the identity here because
`Record` carries exactly those fields in that order. -/
def save_csv (data : List Record) : Option (List Record) :=
  if data.isEmpty then none
  else some (List.insertionSort recLe (dedupByDate data))

/-! ### Concrete fixtures used by witnesses and counterexamples -/

/-- Trivial instantiation of the float-digit-string abstraction. -/
def dg0 : ℚ → ℕ := fun _ => 0

/-- Trivial instantiation of the weekday abstraction. -/
def wk0 : CalDate → ℕ := fun _ => 0

/-- A concrete cutoff date. -/
def target0 : CalDate := ⟨2024, 1, 1⟩

/-- A concrete current date for the fallback probe. -/
def today0 : CalDate := ⟨2025, 1, 15⟩

/-- A row dated after the cutoff with a well-formed price. -/
def rowKeep : Row := ["1", "2024/05/06", "100"]

/-- A second acceptable row. -/
def rowKeep2 : Row := ["2", "2024/05/07", "101"]

/-- A third acceptable row. -/
def rowKeep3 : Row := ["3", "2024/05/08", "102"]

/-- A row dated before the cutoff (parseable date, parseable price). -/
def rowBoundary : Row := ["4", "2023/12/31", "99"]

/-- A row dated before the cutoff whose price text is unparseable. -/
def rowBadPrice : Row := ["5", "2020/01/05", "abc"]

/-- A row dated after the cutoff whose price text is `"0.00"`. -/
def rowZero : Row := ["6", "2024/05/06", "0.00"]

/-- A page holding one acceptable row and advertising a next page. -/
def pageDup : Page := ⟨[], [], [], [], [rowKeep], true⟩

/-- Fetch result stream: the same page twice, then a network failure. -/
def fetchDup : ℕ → Except Unit Page := fun n => if n ≤ 2 then .ok pageDup else .error ()

/-- A page whose only selector hits are three bare `tr` rows. -/
def pageSmall : Page := ⟨[], [], [], [], [rowKeep, rowKeep2, rowKeep3], false⟩

/-- Fetch result stream serving `pageSmall` once. -/
def fetchSmall : ℕ → Except Unit Page := fun n => if n = 1 then .ok pageSmall else .error ()

/-- A page whose single row parses to a record with closing price `0`. -/
def pageZero : Page := ⟨[], [], [], [], [rowZero], false⟩

/-- Fetch result stream serving `pageZero` once. -/
def fetchZero : ℕ → Except Unit Page := fun n => if n = 1 then .ok pageZero else .error ()

/-- A page with an acceptable row followed by a boundary row. -/
def pageStop : Page := ⟨[], [], [], [], [rowKeep, rowBoundary], true⟩

/-- Fetch result stream serving `pageStop`. -/
def fetchStop : ℕ → Except Unit Page := fun _ => .ok pageStop

/-- Fetch result stream that always fails. -/
def fetchErr : ℕ → Except Unit Page := fun _ => .error ()

/-- An alternative-source response carrying the keywords and one numeral. -/
def respHit : Resp := ⟨200, "NEPSE Index 2481.35 rose today"⟩

/-! ## Helper lemmas -/

theorem tableStep_eq (es : List (List Row)) (st : SelState) :
    tableStep es st = match firstBigTable es with
      | some r => ⟨r, true⟩
      | none => st := by
  cases es with
  | nil => simp [tableStep, firstBigTable]
  | cons t ts => simp [tableStep]

theorem scrapeLoop_pages (dg : ℚ → ℕ) (wk : CalDate → ℕ) (fetch : ℕ → Except Unit Page)
    (target : CalDate) :
    ∀ fuel page acc fetched, ∃ k,
      (scrapeLoop dg wk fetch target fuel page acc fetched).2 = fetched ++ List.range' page k
      ∧ k ≤ 31 - page
  | 0, page, acc, fetched => ⟨0, by simp [scrapeLoop], by omega⟩
  | fuel + 1, page, acc, fetched => by
    by_cases hp : 30 < page
    · exact ⟨0, by simp [scrapeLoop, hp], by omega⟩
    · cases hf : fetch page with
      | error e => exact ⟨1, by simp [scrapeLoop, hp, hf], by omega⟩
      | ok pg =>
        by_cases hrows : (selectRows pg).isEmpty
        · exact ⟨1, by simp [scrapeLoop, hp, hf, hrows], by omega⟩
        · by_cases hstop : (processRows dg wk target (selectRows pg) [] []).2
          · exact ⟨1, by simp [scrapeLoop, hp, hf, hrows, hstop], by omega⟩
          · by_cases hemp : (processRows dg wk target (selectRows pg) [] []).1.isEmpty
            · exact ⟨1, by simp [scrapeLoop, hp, hf, hrows, hstop, hemp], by omega⟩
            · by_cases hnext : pg.nextLink
              · obtain ⟨k, hk1, hk2⟩ := scrapeLoop_pages dg wk fetch target fuel (page + 1)
                  (acc ++ (processRows dg wk target (selectRows pg) [] []).1) (fetched ++ [page])
                refine ⟨k + 1, ?_, by omega⟩
                rw [List.range'_succ page k 1]
                simp [scrapeLoop, hp, hf, hrows, hstop, hemp, hnext, hk1]
              · exact ⟨1, by simp [scrapeLoop, hp, hf, hrows, hstop, hemp, hnext], by omega⟩

theorem processRow_accept (dg : ℚ → ℕ) (wk : CalDate → ℕ) (target : CalDate)
    (seen : List CalDate) (cells : List String) (r : Record)
    (h : processRow dg wk target seen cells = .accept r) :
    parseDateCell (pyStrip (cells.getD 1 "")) = some r.date
    ∧ seen.contains r.date = false
    ∧ ¬ dateLt r.date target
    ∧ parsePrice (pyStrip (cells.getD 2 "")) = some r.close
    ∧ r.volume = get_daily_volume_estimate dg wk r.close r.date := by
  unfold processRow at h
  split at h
  · exact absurd h (by simp)
  split at h
  · exact absurd h (by simp)
  split at h
  · exact absurd h (by simp)
  rename_i d hparse
  split at h
  · exact absurd h (by simp)
  rename_i hseen
  split at h
  · exact absurd h (by simp)
  rename_i hlt
  split at h
  · rename_i v hprice
    cases h
    exact ⟨hparse, by simpa using hseen, hlt, hprice, rfl⟩
  · exact absurd h (by simp)

theorem processRow_stop_of (dg : ℚ → ℕ) (wk : CalDate → ℕ) (target : CalDate)
    (seen : List CalDate) (cells : List String) (d : CalDate)
    (h3 : ¬ cells.length < 3)
    (hd : pyStrip (cells.getD 1 "") ≠ "")
    (hp : pyStrip (cells.getD 2 "") ≠ "")
    (hparse : parseDateCell (pyStrip (cells.getD 1 "")) = some d)
    (hns : seen.contains d = false)
    (hlt : dateLt d target) :
    processRow dg wk target seen cells = .stop := by
  unfold processRow
  rw [if_neg h3, if_neg (not_or.2 ⟨hd, hp⟩)]
  split
  · rename_i heq
    rw [hparse] at heq
    cases heq
  · rename_i d' heq
    obtain rfl : d = d' := Option.some.inj (hparse.symm.trans heq)
    rw [if_neg (by simpa using hns), if_pos hlt]

theorem processRow_stop_elim (dg : ℚ → ℕ) (wk : CalDate → ℕ) (target : CalDate)
    (seen : List CalDate) (cells : List String) (d : CalDate)
    (hparse : parseDateCell (pyStrip (cells.getD 1 "")) = some d)
    (h : processRow dg wk target seen cells = .stop) :
    dateLt d target := by
  unfold processRow at h
  split at h
  · exact absurd h (by simp)
  split at h
  · exact absurd h (by simp)
  split at h
  · exact absurd h (by simp)
  rename_i d' hparse'
  obtain rfl : d = d' := Option.some.inj (hparse.symm.trans hparse')
  split at h
  · exact absurd h (by simp)
  split at h
  · rename_i hlt
    exact hlt
  split at h
  · exact absurd h (by simp)
  · exact absurd h (by simp)

theorem processRow_skip_of (dg : ℚ → ℕ) (wk : CalDate → ℕ) (target : CalDate)
    (seen : List CalDate) (cells : List String)
    (h : cells.length < 3
       ∨ pyStrip (cells.getD 1 "") = "" ∨ pyStrip (cells.getD 2 "") = ""
       ∨ parseDateCell (pyStrip (cells.getD 1 "")) = none
       ∨ ∃ d, parseDateCell (pyStrip (cells.getD 1 "")) = some d
            ∧ parsePrice (pyStrip (cells.getD 2 "")) = none
            ∧ (seen.contains d = true ∨ ¬ dateLt d target)) :
    processRow dg wk target seen cells = .skip := by
  unfold processRow
  split
  · rfl
  rename_i h3
  split
  · rfl
  rename_i hemp
  split
  · rfl
  rename_i d' hparse'
  rcases h with h | h | h | h | ⟨d, hd1, hd2, hd3⟩
  · exact absurd h h3
  · exact absurd (Or.inl h) hemp
  · exact absurd (Or.inr h) hemp
  · rw [h] at hparse'; cases hparse'
  · obtain rfl : d = d' := Option.some.inj (hd1.symm.trans hparse')
    rcases hd3 with hseen | hnlt
    · rw [if_pos hseen]
    · by_cases hc : seen.contains d = true
      · rw [if_pos hc]
      · rw [if_neg hc, if_neg hnlt]
        split
        · rename_i v hpr
          rw [hd2] at hpr
          cases hpr
        · rfl

theorem processRows_cons_skip (dg : ℚ → ℕ) (wk : CalDate → ℕ) (target : CalDate)
    (seen : List CalDate) (row : List String) (rest : List (List String)) (recs : List Record)
    (h : processRow dg wk target seen row = .skip) :
    processRows dg wk target (row :: rest) seen recs = processRows dg wk target rest seen recs := by
  simp [processRows, h]

theorem processRows_cons_stop (dg : ℚ → ℕ) (wk : CalDate → ℕ) (target : CalDate)
    (seen : List CalDate) (row : List String) (rest : List (List String)) (recs : List Record)
    (h : processRow dg wk target seen row = .stop) :
    processRows dg wk target (row :: rest) seen recs = (recs, true) := by
  simp [processRows, h]

theorem processRows_not_lt (dg : ℚ → ℕ) (wk : CalDate → ℕ) (target : CalDate) :
    ∀ rows seen recs, (∀ r ∈ recs, ¬ dateLt r.date target) →
      ∀ r ∈ (processRows dg wk target rows seen recs).1, ¬ dateLt r.date target
  | [], _, recs => fun hrecs => by simpa [processRows] using hrecs
  | row :: rest, seen, recs => fun hrecs => by
    cases hrow : processRow dg wk target seen row with
    | skip =>
      rw [processRows_cons_skip dg wk target seen row rest recs hrow]
      exact processRows_not_lt dg wk target rest seen recs hrecs
    | stop =>
      rw [processRows_cons_stop dg wk target seen row rest recs hrow]
      exact hrecs
    | accept r0 =>
      simp only [processRows, hrow]
      refine processRows_not_lt dg wk target rest (r0.date :: seen) (recs ++ [r0]) ?_
      intro r hr
      rcases List.mem_append.1 hr with hmem | hmem
      · exact hrecs r hmem
      · obtain ⟨_, _, hnlt, _, _⟩ := processRow_accept dg wk target seen row r0 hrow
        have : r = r0 := by simpa using hmem
        rw [this]; exact hnlt

theorem processRows_dates_nodup (dg : ℚ → ℕ) (wk : CalDate → ℕ) (target : CalDate) :
    ∀ rows seen recs, (∀ r ∈ recs, r.date ∈ seen) →
      (recs.map (·.date)).Nodup →
      ((processRows dg wk target rows seen recs).1.map (·.date)).Nodup
  | [], _, recs => fun _ h2 => by simpa [processRows] using h2
  | row :: rest, seen, recs => fun h1 h2 => by
    cases hrow : processRow dg wk target seen row with
    | skip =>
      rw [processRows_cons_skip dg wk target seen row rest recs hrow]
      exact processRows_dates_nodup dg wk target rest seen recs h1 h2
    | stop =>
      rw [processRows_cons_stop dg wk target seen row rest recs hrow]
      exact h2
    | accept r0 =>
      simp only [processRows, hrow]
      obtain ⟨_, hns, _, _, _⟩ := processRow_accept dg wk target seen row r0 hrow
      have hnotin : r0.date ∉ seen := by simpa using hns
      refine processRows_dates_nodup dg wk target rest (r0.date :: seen) (recs ++ [r0]) ?_ ?_
      · intro r hr
        rcases List.mem_append.1 hr with hmem | hmem
        · exact List.mem_cons_of_mem _ (h1 r hmem)
        · have : r = r0 := by simpa using hmem
          rw [this]; exact List.mem_cons_self _ _
      · rw [List.map_append]
        refine List.Nodup.append h2 (by simp) ?_
        intro x hx hx'
        have hx0 : x = r0.date := by simpa using hx'
        obtain ⟨r, hrmem, hrdate⟩ := List.mem_map.1 hx
        refine hnotin ?_
        rw [← hx0, ← hrdate]
        exact h1 r hrmem

theorem scrapeLoop_not_lt (dg : ℚ → ℕ) (wk : CalDate → ℕ) (fetch : ℕ → Except Unit Page)
    (target : CalDate) :
    ∀ fuel page acc fetched, (∀ r ∈ acc, ¬ dateLt r.date target) →
      ∀ r ∈ (scrapeLoop dg wk fetch target fuel page acc fetched).1, ¬ dateLt r.date target
  | 0, page, acc, fetched => fun hacc => by simpa [scrapeLoop] using hacc
  | fuel + 1, page, acc, fetched => fun hacc => by
    by_cases hp : 30 < page
    · simpa [scrapeLoop, hp] using hacc
    · cases hf : fetch page with
      | error e => simpa [scrapeLoop, hp, hf] using hacc
      | ok pg =>
        have happ : ∀ r ∈ acc ++ (processRows dg wk target (selectRows pg) [] []).1,
            ¬ dateLt r.date target := by
          intro r hr
          rcases List.mem_append.1 hr with hmem | hmem
          · exact hacc r hmem
          · exact processRows_not_lt dg wk target (selectRows pg) [] [] (by simp) r hmem
        by_cases hrows : (selectRows pg).isEmpty
        · simpa [scrapeLoop, hp, hf, hrows] using hacc
        · by_cases hstop : (processRows dg wk target (selectRows pg) [] []).2
          · simpa [scrapeLoop, hp, hf, hrows, hstop] using happ
          · by_cases hemp : (processRows dg wk target (selectRows pg) [] []).1.isEmpty
            · simpa [scrapeLoop, hp, hf, hrows, hstop, hemp] using hacc
            · by_cases hnext : pg.nextLink
              · have hrec := scrapeLoop_not_lt dg wk fetch target fuel (page + 1)
                  (acc ++ (processRows dg wk target (selectRows pg) [] []).1)
                  (fetched ++ [page]) happ
                simpa [scrapeLoop, hp, hf, hrows, hstop, hemp, hnext] using hrec
              · simpa [scrapeLoop, hp, hf, hrows, hstop, hemp, hnext] using happ

/-! ## Claim theorems -/

/-- Claim C5 (counterexample): on a page where no selector strategy yields
more than 5 rows (all table selectors empty, `tbody tr` empty, `tr` has 3
rows), the run does not stop with zero rows for the page: the 3 bare `tr`
rows are processed and contribute 3 records. -/
theorem C5_counterexample :
    pageSmall.tables = [] ∧ pageSmall.dotTables = [] ∧ pageSmall.classTables = []
    ∧ pageSmall.tbodyRows = [] ∧ pageSmall.trRows.length = 3
    ∧ selectRows pageSmall = pageSmall.trRows
    ∧ (scrape_nepse_daily_data dg0 wk0 fetchSmall target0).1.length = 3 := by
  refine ⟨rfl, rfl, rfl, rfl, rfl, rfl, ?_⟩
  decide

/-- Claim C5 (amended): the rows processed for a page are those of the
first selector strategy yielding more than 5 rows; when no strategy does,
the rows are not empty in general: they are the `tbody tr` matches when
those number more than 5, else the last nonempty direct selector result
(`tr`, falling back to `tbody tr`), and only if no selector matched any
row does the page contribute nothing. -/
theorem C5_cascade (pg : Page) : selectRows pg = selectRowsSpec pg := by
  obtain ⟨t1, t2, t3, tb, tr, nl⟩ := pg
  simp only [selectRows, selectRowsSpec, selectLoop, tableStep_eq]
  cases h1 : firstBigTable t1 with
  | some r => simp
  | none =>
    cases h2 : firstBigTable t2 with
    | some r => simp
    | none =>
      cases h3 : firstBigTable t3 with
      | some r => simp
      | none =>
        simp only [directStep]
        cases tb with
        | nil =>
          cases tr with
          | nil => simp
          | cons a as =>
            by_cases h5 : 5 < (a :: as).length <;> simp [h5]
        | cons b bs =>
          by_cases h5 : 5 < (b :: bs).length
          · simp only [List.length_cons] at h5
            simp [h5]
          · simp only [List.length_cons] at h5
            cases tr with
            | nil => simp [h5]
            | cons a as =>
              by_cases h5' : 5 < (a :: as).length <;>
                simp only [List.length_cons] at h5' <;> simp [h5, h5']

/-- Claim C9: at most 30 pages are ever fetched; the loop increments the
page index by one per page (the fetched pages form the contiguous range
starting at 1) and terminates once the index exceeds 30.  Termination
itself is structural: `scrapeLoop` is a total function. -/
theorem C9_page_limit (dg : ℚ → ℕ) (wk : CalDate → ℕ) (fetch : ℕ → Except Unit Page)
    (target : CalDate) :
    ∃ k, (scrape_nepse_daily_data dg wk fetch target).2 = List.range' 1 k ∧ k ≤ 30 := by
  obtain ⟨k, h1, h2⟩ := scrapeLoop_pages dg wk fetch target 31 1 [] []
  exact ⟨k, by simpa [scrape_nepse_daily_data] using h1, by omega⟩

/-- Claim C7: `scrape_nepse_daily_data` never raises (it is a total
function); a fetch failure on page `page` makes the loop return exactly
the records accumulated before the failure, and a failure on the first
page yields the empty list. -/
theorem C7_fetch_failure (dg : ℚ → ℕ) (wk : CalDate → ℕ) (fetch : ℕ → Except Unit Page)
    (target : CalDate) (fuel page : ℕ) (acc : List Record) (fetched : List ℕ)
    (hp : page ≤ 30) (he : fetch page = .error ()) :
    scrapeLoop dg wk fetch target (fuel + 1) page acc fetched = (acc, fetched ++ [page])
    ∧ (fetch 1 = .error () → scrape_nepse_daily_data dg wk fetch target = ([], [1])) := by
  constructor
  · have h30 : ¬ 30 < page := by omega
    simp [scrapeLoop, h30, he]
  · intro h1
    have h30 : ¬ (30 : ℕ) < 1 := by omega
    show scrapeLoop dg wk fetch target (30 + 1) 1 [] [] = ([], [1])
    simp [scrapeLoop, h30, h1]

/-- Witness for C7 at a concrete always-failing fetch stream. -/
theorem C7_fetch_failure_witness :
    scrapeLoop dg0 wk0 fetchErr target0 (0 + 1) 1 [] [] = ([], [1])
    ∧ (fetchErr 1 = .error () → scrape_nepse_daily_data dg0 wk0 fetchErr target0 = ([], [1])) :=
  C7_fetch_failure dg0 wk0 fetchErr target0 0 1 [] [] (by omega) rfl

/-- Claim C2 (counterexample): the seen-dates set is reset on every page
(line 122 sits inside the `while` loop), so the same date arriving on two
pages is collected twice: with `fetchDup` serving the same one-row page
for pages 1 and 2, the returned list holds two records dated 2024-05-06. -/
theorem C2_counterexample :
    (scrape_nepse_daily_data dg0 wk0 fetchDup target0).1.map (·.date)
      = [⟨2024, 5, 6⟩, ⟨2024, 5, 6⟩]
    ∧ ¬ ((scrape_nepse_daily_data dg0 wk0 fetchDup target0).1.map (·.date)).Nodup := by
  exact ⟨by decide, by decide⟩

/-- Claim C2 (amended): the seen-dates set is created afresh for each page
(line 122 is inside the pagination loop), so deduplication holds only
within one page's contribution: the records a single page contributes have
pairwise-distinct dates, but the same date may recur across pages. -/
theorem C2_page_dedup (dg : ℚ → ℕ) (wk : CalDate → ℕ) (target : CalDate)
    (rows : List (List String)) :
    (((processRows dg wk target rows [] []).1.map (·.date)).Nodup) :=
  processRows_dates_nodup dg wk target rows [] [] (by simp) (by simp)

/-- Claim C1: a candidate row (at least 3 cells, nonempty date and price
text, date parsing to `d`, under the loop invariant that all seen dates
are on or after the cutoff) is classified as a boundary stop exactly when
`d` is strictly before the cutoff — a row dated exactly at the cutoff is
not a stop; on a stop verdict the row scan ends at once with the records
collected before the boundary row, and the pagination loop returns the
earlier pages' records followed by that partial page immediately. -/
theorem C1_boundary_stop (dg : ℚ → ℕ) (wk : CalDate → ℕ) (fetch : ℕ → Except Unit Page)
    (target d : CalDate) (seen : List CalDate) (cells : List String)
    (rest : List (List String)) (recs acc : List Record) (fetched : List ℕ)
    (pg : Page) (fuel page : ℕ)
    (h3 : ¬ cells.length < 3)
    (hd : pyStrip (cells.getD 1 "") ≠ "")
    (hp : pyStrip (cells.getD 2 "") ≠ "")
    (hparse : parseDateCell (pyStrip (cells.getD 1 "")) = some d)
    (hseen : ∀ s ∈ seen, ¬ dateLt s target) :
    (processRow dg wk target seen cells = .stop ↔ dateLt d target)
    ∧ (processRow dg wk target seen cells = .stop →
        processRows dg wk target (cells :: rest) seen recs = (recs, true))
    ∧ (page ≤ 30 → fetch page = .ok pg → ¬ (selectRows pg).isEmpty →
        (processRows dg wk target (selectRows pg) [] []).2 = true →
        scrapeLoop dg wk fetch target (fuel + 1) page acc fetched
          = (acc ++ (processRows dg wk target (selectRows pg) [] []).1, fetched ++ [page])) := by
  refine ⟨⟨fun h => processRow_stop_elim dg wk target seen cells d hparse h, fun hlt => ?_⟩,
    fun h => processRows_cons_stop dg wk target seen cells rest recs h, ?_⟩
  · by_cases hc : seen.contains d = true
    · have hdin : d ∈ seen := by simpa using hc
      exact absurd hlt (hseen d hdin)
    · exact processRow_stop_of dg wk target seen cells d h3 hd hp hparse (by simpa using hc) hlt
  · intro hpage hok hne hstop
    have h30 : ¬ 30 < page := by omega
    simp only [scrapeLoop, hok]
    rw [if_neg h30, if_neg hne, if_pos hstop]

/-- Witness for C1 on a concrete page whose second row crosses the cutoff. -/
theorem C1_boundary_stop_witness :
    (processRow dg0 wk0 target0 [] rowBoundary = .stop ↔ dateLt ⟨2023, 12, 31⟩ target0)
    ∧ (processRow dg0 wk0 target0 [] rowBoundary = .stop →
        processRows dg0 wk0 target0 (rowBoundary :: [rowKeep]) [] [] = ([], true))
    ∧ (1 ≤ 30 → fetchStop 1 = .ok pageStop → ¬ (selectRows pageStop).isEmpty →
        (processRows dg0 wk0 target0 (selectRows pageStop) [] []).2 = true →
        scrapeLoop dg0 wk0 fetchStop target0 (0 + 1) 1 [] []
          = ([] ++ (processRows dg0 wk0 target0 (selectRows pageStop) [] []).1, [] ++ [1])) :=
  C1_boundary_stop dg0 wk0 fetchStop target0 ⟨2023, 12, 31⟩ [] rowBoundary [rowKeep] [] [] []
    pageStop 0 1 (by decide) (by decide) (by decide) (by decide) (by simp)

/-- Claim C10: the cutoff comparison runs after date parsing but before
price validation: a row with at least 3 cells, nonempty texts, and a
not-yet-seen parsed date strictly before the cutoff yields the stop
verdict with no hypothesis at all about its price text, ending the row
scan immediately; consequently every record the harvest returns is dated
on or after the cutoff. -/
theorem C10_cutoff_before_price (dg : ℚ → ℕ) (wk : CalDate → ℕ)
    (fetch : ℕ → Except Unit Page) (target d : CalDate) (seen : List CalDate)
    (cells : List String) (rest : List (List String)) (recs : List Record)
    (h3 : ¬ cells.length < 3)
    (hd : pyStrip (cells.getD 1 "") ≠ "")
    (hp : pyStrip (cells.getD 2 "") ≠ "")
    (hparse : parseDateCell (pyStrip (cells.getD 1 "")) = some d)
    (hns : seen.contains d = false)
    (hlt : dateLt d target) :
    processRow dg wk target seen cells = .stop
    ∧ processRows dg wk target (cells :: rest) seen recs = (recs, true)
    ∧ ∀ r ∈ (scrape_nepse_daily_data dg wk fetch target).1, ¬ dateLt r.date target := by
  have hstop := processRow_stop_of dg wk target seen cells d h3 hd hp hparse hns hlt
  exact ⟨hstop, processRows_cons_stop dg wk target seen cells rest recs hstop,
    scrapeLoop_not_lt dg wk fetch target 31 1 [] [] (by simp)⟩

/-- Witness for C10 at a row whose price text is unparseable. -/
theorem C10_cutoff_before_price_witness :
    processRow dg0 wk0 target0 [] rowBadPrice = .stop
    ∧ processRows dg0 wk0 target0 (rowBadPrice :: [rowKeep]) [] [] = ([], true)
    ∧ ∀ r ∈ (scrape_nepse_daily_data dg0 wk0 fetchZero target0).1, ¬ dateLt r.date target0 :=
  C10_cutoff_before_price dg0 wk0 fetchZero target0 ⟨2020, 1, 5⟩ [] rowBadPrice [rowKeep] []
    (by decide) (by decide) (by decide) (by decide) (by decide) (by decide)

/-- Claim C6 (counterexample): a row whose price text fails to parse is
not always skipped silently: `rowBadPrice` has an unparseable price but a
parseable date before the cutoff, so it triggers the boundary stop and
the following row is never processed (alone, that following row would
contribute a record). -/
theorem C6_counterexample :
    parsePrice "abc" = none
    ∧ processRow dg0 wk0 target0 [] rowBadPrice ≠ .skip
    ∧ (processRows dg0 wk0 target0 [rowBadPrice, rowKeep] [] []).1 = []
    ∧ (processRows dg0 wk0 target0 [rowKeep] [] []).1.length = 1 := by
  exact ⟨by decide, by decide, by decide, by decide⟩

/-- Claim C6 (amended): a row with fewer than 3 cells, or an empty date or
price text, or an unparseable date, or an unparseable price — provided in
the last case the row does not trigger the boundary early return (its
date is already seen or not before the cutoff) — is skipped silently: no
record is produced and the scan of the remaining rows continues with the
loop state unchanged. -/
theorem C6_silent_skip (dg : ℚ → ℕ) (wk : CalDate → ℕ) (target : CalDate)
    (seen : List CalDate) (cells : List String) (rest : List (List String))
    (recs : List Record)
    (h : cells.length < 3
       ∨ pyStrip (cells.getD 1 "") = "" ∨ pyStrip (cells.getD 2 "") = ""
       ∨ parseDateCell (pyStrip (cells.getD 1 "")) = none
       ∨ ∃ d, parseDateCell (pyStrip (cells.getD 1 "")) = some d
            ∧ parsePrice (pyStrip (cells.getD 2 "")) = none
            ∧ (seen.contains d = true ∨ ¬ dateLt d target)) :
    processRow dg wk target seen cells = .skip
    ∧ processRows dg wk target (cells :: rest) seen recs
        = processRows dg wk target rest seen recs := by
  have hskip := processRow_skip_of dg wk target seen cells h
  exact ⟨hskip, processRows_cons_skip dg wk target seen cells rest recs hskip⟩

/-- Witness for the amended C6 at a row with a single cell. -/
theorem C6_silent_skip_witness :
    processRow dg0 wk0 target0 [] ["7"] = .skip
    ∧ processRows dg0 wk0 target0 (["7"] :: [rowKeep]) [] []
        = processRows dg0 wk0 target0 [rowKeep] [] [] :=
  C6_silent_skip dg0 wk0 target0 [] ["7"] [rowKeep] [] (Or.inl (by decide))

theorem decOfParts_nonneg (ip fp : List Char) : 0 ≤ decOfParts ip fp := by
  unfold decOfParts
  exact Rat.divInt_nonneg (by positivity) (by positivity)

theorem parsePrice_nonneg (s : String) (v : ℚ) (h : parsePrice s = some v) : 0 ≤ v := by
  unfold parsePrice at h
  split at h
  · unfold pyFloatDigits at h
    split at h
    · cases h; exact decOfParts_nonneg _ _
    · cases h; exact decOfParts_nonneg _ _
    · cases h
  · cases h

theorem get_daily_volume_estimate_pos (dg : ℚ → ℕ) (wk : CalDate → ℕ) (v : ℚ) (d : CalDate)
    (hv : 0 ≤ v) : 0 < get_daily_volume_estimate dg wk v d := by
  unfold get_daily_volume_estimate
  have h0 : (0 : ℚ) ≤ v / 2500 * 0.3 := by
    have := div_nonneg hv (by norm_num : (0 : ℚ) ≤ 2500)
    exact mul_nonneg this (by norm_num)
  have h1 : (0 : ℚ) < v / 2500 * 0.3 + 0.85 := by
    have : (0 : ℚ) < 0.85 := by norm_num
    linarith
  have h2 : (0 : ℚ) < dayFactor (wk d) := by
    unfold dayFactor
    split
    · norm_num
    · split <;> norm_num
  have h3 : (0 : ℚ) < 0.7 + ((dg v % 60 : ℕ) : ℚ) / 100 := by
    have : (0 : ℚ) ≤ ((dg v % 60 : ℕ) : ℚ) / 100 := by positivity
    have h07 : (0 : ℚ) < 0.7 := by norm_num
    linarith
  exact mul_pos (mul_pos (mul_pos (by norm_num) h1) h2) h3

theorem dedupAux_spec : ∀ (seen : List CalDate) (l : List Record),
    (∀ r ∈ dedupAux seen l, r.date ∉ seen)
    ∧ ((dedupAux seen l).map (·.date)).Nodup
  | seen, [] => ⟨by simp [dedupAux], by simp [dedupAux]⟩
  | seen, r :: rest => by
    by_cases hc : r.date ∈ seen
    · obtain ⟨ih1, ih2⟩ := dedupAux_spec seen rest
      constructor
      · intro x hx
        exact ih1 x (by simpa [dedupAux, hc] using hx)
      · simpa [dedupAux, hc] using ih2
    · obtain ⟨ih1, ih2⟩ := dedupAux_spec (r.date :: seen) rest
      constructor
      · intro x hx
        rcases (by simpa [dedupAux, hc] using hx :
            x = r ∨ x ∈ dedupAux (r.date :: seen) rest) with rfl | hx'
        · exact hc
        · have hmem := ih1 x hx'
          simp only [List.mem_cons, not_or] at hmem
          exact hmem.2
      · have hgoal : ((r :: dedupAux (r.date :: seen) rest).map (·.date)).Nodup := by
          simp only [List.map_cons, List.nodup_cons]
          refine ⟨?_, ih2⟩
          intro hmem
          obtain ⟨x, hx, hxd⟩ := List.mem_map.1 hmem
          have h2 := ih1 x hx
          simp only [List.mem_cons, not_or] at h2
          exact h2.1 hxd
        simpa [dedupAux, hc] using hgoal

theorem dedupAux_sublist : ∀ (seen : List CalDate) (l : List Record),
    List.Sublist (dedupAux seen l) l
  | _, [] => by simp [dedupAux]
  | seen, r :: rest => by
    by_cases hc : r.date ∈ seen
    · simpa [dedupAux, hc] using (dedupAux_sublist seen rest).cons r
    · simpa [dedupAux, hc] using (dedupAux_sublist (r.date :: seen) rest).cons₂ r

theorem save_sorted_nodup (data : List Record) :
    List.Sorted recLt (List.insertionSort recLe (dedupByDate data))
    ∧ ((List.insertionSort recLe (dedupByDate data)).map (·.date)).Nodup := by
  have hnd : ((dedupByDate data).map (·.date)).Nodup := (dedupAux_spec [] data).2
  have hperm : (List.insertionSort recLe (dedupByDate data)).Perm (dedupByDate data) :=
    List.perm_insertionSort recLe (dedupByDate data)
  have hnd' : ((List.insertionSort recLe (dedupByDate data)).map (·.date)).Nodup :=
    ((hperm.map (·.date)).nodup_iff).2 hnd
  refine ⟨?_, hnd'⟩
  have hs : List.Sorted recLe (List.insertionSort recLe (dedupByDate data)) :=
    List.sorted_insertionSort recLe (dedupByDate data)
  have hne : (List.insertionSort recLe (dedupByDate data)).Pairwise
      (fun a b => a.date ≠ b.date) := List.pairwise_map.1 hnd'
  refine (hs.and hne).imp ?_
  intro a b hab
  obtain ⟨hle, hneq⟩ := hab
  rcases hle with hlt | heq
  · exact hlt
  · exact absurd heq hneq

/-- Claim C3 (counterexample): the price guard accepts `"0.00"` (all
digits once the dot is removed), so an accepted row can carry Close = 0,
and such a record reaches the persisted dataset: with `fetchZero` the
saved dataset's Close column is exactly `[0]`, contradicting Close > 0. -/
theorem C3_counterexample :
    ((save_csv (scrape_nepse_daily_data dg0 wk0 fetchZero target0).1).getD []).map (·.close)
      = [0] := by
  decide

/-- Claim C3 (amended): every accepted record has Close ≥ 0 (zero is
possible, see `C3_counterexample`) and a strictly positive Volume, and the
persisted dataset has pairwise-distinct dates. -/
theorem C3_persisted_invariants (dg : ℚ → ℕ) (wk : CalDate → ℕ) (target : CalDate)
    (seen : List CalDate) (cells : List String) (r : Record)
    (data out : List Record)
    (hacc : processRow dg wk target seen cells = .accept r)
    (hsave : save_csv data = some out) :
    0 ≤ r.close ∧ 0 < r.volume ∧ ((out.map (·.date)).Nodup) := by
  obtain ⟨_, _, _, hprice, hvol⟩ := processRow_accept dg wk target seen cells r hacc
  have hc : 0 ≤ r.close := parsePrice_nonneg _ _ hprice
  refine ⟨hc, ?_, ?_⟩
  · rw [hvol]
    exact get_daily_volume_estimate_pos dg wk r.close r.date hc
  · unfold save_csv at hsave
    split at hsave
    · cases hsave
    · cases hsave
      exact (save_sorted_nodup data).2

/-- Witness for the amended C3 at an accepted zero-price row and a
concrete saved dataset. -/
theorem C3_persisted_invariants_witness :
    0 ≤ (⟨⟨2024, 5, 6⟩, 0, get_daily_volume_estimate dg0 wk0 0 ⟨2024, 5, 6⟩⟩ : Record).close
    ∧ 0 < (⟨⟨2024, 5, 6⟩, 0, get_daily_volume_estimate dg0 wk0 0 ⟨2024, 5, 6⟩⟩ : Record).volume
    ∧ (((List.insertionSort recLe (dedupByDate [⟨⟨2024, 5, 6⟩, 0,
          get_daily_volume_estimate dg0 wk0 0 ⟨2024, 5, 6⟩⟩])).map (·.date)).Nodup) :=
  C3_persisted_invariants dg0 wk0 target0 [] rowZero
    ⟨⟨2024, 5, 6⟩, 0, get_daily_volume_estimate dg0 wk0 0 ⟨2024, 5, 6⟩⟩
    [⟨⟨2024, 5, 6⟩, 0, get_daily_volume_estimate dg0 wk0 0 ⟨2024, 5, 6⟩⟩]
    (List.insertionSort recLe (dedupByDate [⟨⟨2024, 5, 6⟩, 0,
      get_daily_volume_estimate dg0 wk0 0 ⟨2024, 5, 6⟩⟩]))
    (by rfl) (by rfl)

/-- Claim C4: for nonempty input, `save_csv` drops duplicate dates keeping
the first occurrence (the kept records form a sublist of the input, in
input order), then sorts ascending by date; the persisted rows are
strictly ascending by date with no duplicate dates.  The projection to
the columns Date, Close, Volume is the identity of the `Record` type,
which carries exactly those three fields in that order. -/
theorem C4_writer (data : List Record) (hne : data ≠ []) :
    save_csv data = some (List.insertionSort recLe (dedupByDate data))
    ∧ List.Sublist (dedupByDate data) data
    ∧ List.Sorted recLt (List.insertionSort recLe (dedupByDate data))
    ∧ ((List.insertionSort recLe (dedupByDate data)).map (·.date)).Nodup := by
  refine ⟨?_, dedupAux_sublist [] data, (save_sorted_nodup data).1, (save_sorted_nodup data).2⟩
  unfold save_csv
  rw [if_neg (by simpa using hne)]

/-- Witness for C4 at a two-record input with a duplicated date. -/
theorem C4_writer_witness :
    save_csv [⟨⟨2024, 1, 2⟩, 1, 1⟩, ⟨⟨2024, 1, 2⟩, 2, 1⟩]
      = some (List.insertionSort recLe (dedupByDate [⟨⟨2024, 1, 2⟩, 1, 1⟩, ⟨⟨2024, 1, 2⟩, 2, 1⟩]))
    ∧ List.Sublist (dedupByDate [⟨⟨2024, 1, 2⟩, 1, 1⟩, ⟨⟨2024, 1, 2⟩, 2, 1⟩])
        [⟨⟨2024, 1, 2⟩, 1, 1⟩, ⟨⟨2024, 1, 2⟩, 2, 1⟩]
    ∧ List.Sorted recLt (List.insertionSort recLe
        (dedupByDate [⟨⟨2024, 1, 2⟩, 1, 1⟩, ⟨⟨2024, 1, 2⟩, 2, 1⟩]))
    ∧ (((List.insertionSort recLe
        (dedupByDate [⟨⟨2024, 1, 2⟩, 1, 1⟩, ⟨⟨2024, 1, 2⟩, 2, 1⟩])).map (·.date)).Nodup) :=
  C4_writer [⟨⟨2024, 1, 2⟩, 1, 1⟩, ⟨⟨2024, 1, 2⟩, 2, 1⟩] (by simp)

theorem tryAlt_cons_none (dg : ℚ → ℕ) (wk : CalDate → ℕ) (today : CalDate)
    (s : Except Unit Resp) (rest : List (Except Unit Resp))
    (h : srcYields s = none) :
    try_alternative_source dg wk today (s :: rest) = try_alternative_source dg wk today rest := by
  cases s with
  | error e => rfl
  | ok r =>
    simp only [srcYields] at h
    simp only [try_alternative_source]
    by_cases h200 : r.status = 200
    · rw [if_pos h200] at h ⊢
      by_cases hkw : hasKeywords (pyLower r.text) = true
      · rw [if_pos hkw] at h ⊢
        split at h
        · rename_i heq
          simp [heq]
        · rename_i n ns heq
          split
          · rename_i v hv
            rw [h] at hv
            cases hv
          · rfl
      · rw [if_neg hkw]
    · rw [if_neg h200]

theorem tryAlt_cons_some (dg : ℚ → ℕ) (wk : CalDate → ℕ) (today : CalDate)
    (s : Except Unit Resp) (rest : List (Except Unit Resp)) (v : ℚ)
    (h : srcYields s = some v) :
    try_alternative_source dg wk today (s :: rest)
      = [⟨today, v, get_daily_volume_estimate dg wk v today⟩] := by
  cases s with
  | error e => simp [srcYields] at h
  | ok r =>
    simp only [srcYields] at h
    simp only [try_alternative_source]
    by_cases h200 : r.status = 200
    · rw [if_pos h200] at h ⊢
      by_cases hkw : hasKeywords (pyLower r.text) = true
      · rw [if_pos hkw] at h ⊢
        split at h
        · cases h
        · rename_i n ns heq
          simp [h]
      · rw [if_neg hkw] at h
        cases h
    · rw [if_neg h200] at h
      cases h

theorem tryAlt_length (dg : ℚ → ℕ) (wk : CalDate → ℕ) (today : CalDate) :
    ∀ l, (try_alternative_source dg wk today l).length ≤ 1
  | [] => by simp [try_alternative_source]
  | s :: rest => by
    cases hy : srcYields s with
    | none =>
      rw [tryAlt_cons_none dg wk today s rest hy]
      exact tryAlt_length dg wk today rest
    | some v =>
      rw [tryAlt_cons_some dg wk today s rest v hy]
      simp

theorem tryAlt_all_none (dg : ℚ → ℕ) (wk : CalDate → ℕ) (today : CalDate) :
    ∀ l, (∀ s ∈ l, srcYields s = none) → try_alternative_source dg wk today l = []
  | [] => fun _ => rfl
  | s :: rest => fun h => by
    rw [tryAlt_cons_none dg wk today s rest (h s (by simp))]
    exact tryAlt_all_none dg wk today rest (fun s' hs' => h s' (by simp [hs']))

/-- Claim C8: the fallback probe returns at most one record; when the
sources before `s` all fail to yield a value (request failure, non-200
status, missing keywords, or no numeral) and `s` yields `v` (its
lowercased text contains both keywords and its first numeral has value
`v`), the probe returns exactly one record dated `today` with Close `v`;
and when every source fails to yield a value the probe returns the empty
list. -/
theorem C8_fallback (dg : ℚ → ℕ) (wk : CalDate → ℕ) (today : CalDate)
    (srcs pre post : List (Except Unit Resp)) (s : Except Unit Resp) (v : ℚ)
    (hsplit : srcs = pre ++ s :: post)
    (hpre : ∀ s' ∈ pre, srcYields s' = none)
    (hs : srcYields s = some v) :
    try_alternative_source dg wk today srcs
      = [⟨today, v, get_daily_volume_estimate dg wk v today⟩]
    ∧ (∀ l, (try_alternative_source dg wk today l).length ≤ 1)
    ∧ (∀ l, (∀ s' ∈ l, srcYields s' = none) → try_alternative_source dg wk today l = []) := by
  refine ⟨?_, tryAlt_length dg wk today, tryAlt_all_none dg wk today⟩
  subst hsplit
  induction pre with
  | nil => exact tryAlt_cons_some dg wk today s post v hs
  | cons p ps ih =>
    rw [List.cons_append, tryAlt_cons_none dg wk today p (ps ++ s :: post)
      (hpre p (by simp))]
    exact ih (fun s' hs' => hpre s' (by simp [hs']))

/-- Witness for C8: a single source whose text is
`"NEPSE Index 2481.35 rose today"` yields one record with Close 2481.35. -/
theorem C8_fallback_witness :
    try_alternative_source dg0 wk0 today0 [.ok respHit]
      = [⟨today0, (2481.35 : ℚ), get_daily_volume_estimate dg0 wk0 (2481.35 : ℚ) today0⟩]
    ∧ (∀ l, (try_alternative_source dg0 wk0 today0 l).length ≤ 1)
    ∧ (∀ l, (∀ s' ∈ l, srcYields s' = none) → try_alternative_source dg0 wk0 today0 l = []) :=
  C8_fallback dg0 wk0 today0 [.ok respHit] [] [] (.ok respHit) (2481.35 : ℚ) rfl (by simp)
    (by rw [show (2481.35 : ℚ) = Rat.divInt 248135 100 by rw [Rat.divInt_eq_div]; norm_num]
        decide)

end Nepse
